import Mathlib

/-!
Verification of `src/rewrite_code_sum.py`, a script that rewrites every
`*.jsonl` file in a fixed directory, keeping only a whitelisted set of keys
in each JSON-object line.

Embedding conventions:
* JSON values are the inductive `Json`; JSON numbers are modelled as
  integers (no claim depends on the formatting of non-integer numbers).
* Text is modelled as `List Char`; a file's content is one `List Char`.
* Python's `json.loads` is an external library function, so the decoder is
  a parameter `decode : List Char → Except Unit Json` of every operation
  (an `Except.error ()` is a `json.JSONDecodeError`); theorems state the
  properties of `json.loads` they rely on as hypotheses, discharged on
  concrete table decoders in the witnesses.
* Python's `json.dump` with its default options is modelled concretely by
  `dumpChars` (ASCII-escaping string serializer).
* The uncatchable errors the script can raise (`TypeError` from `key in data`
  or `data[key]` on non-container values) are the `PyErr` error monad.
-/

namespace RewriteCodeSum

/-- A JSON value as produced by `json.loads`: an object is an association
list of string keys to values (Python `dict`; `json.loads` never produces
duplicate keys).  Numbers are modelled as integers. -/
inductive Json where
  | null : Json
  | bool (b : Bool) : Json
  | num (n : Int) : Json
  | str (s : String) : Json
  | arr (elems : List Json) : Json
  | obj (members : List (String × Json)) : Json

mutual

/-- Structural equality of JSON values; Python's `==` restricted to the
values `json.loads` can produce (the script only ever compares a decoded
value against a string key, where Python `==` agrees with structural
equality). -/
def beqJson : Json → Json → Bool
  | .null, .null => true
  | .bool a, .bool b => a == b
  | .num a, .num b => a == b
  | .str a, .str b => a == b
  | .arr a, .arr b => beqArr a b
  | .obj a, .obj b => beqObj a b
  | _, _ => false

def beqArr : List Json → List Json → Bool
  | [], [] => true
  | a :: as, b :: bs => beqJson a b && beqArr as bs
  | _, _ => false

def beqObj : List (String × Json) → List (String × Json) → Bool
  | [], [] => true
  | p :: ps, q :: qs => p.1 == q.1 && beqJson p.2 q.2 && beqObj ps qs
  | _, _ => false

end

/-- The whitelist from the source (`fields_to_keep`), in declaration order.
The source stores it in a Python `set`; only its membership matters to the
claims, so a fixed iteration order is used. -/
def fields_to_keep : List String :=
  ["task", "lang", "url", "prompt_category", "prompt_id", "model_name", "metrics"]

/-- The Python exceptions the per-line code can raise besides
`json.JSONDecodeError` (which is the `Except.error ()` of the decoder):
`TypeError` from `key in data` or `data[key]` on a non-container, and
`KeyError` from a missing dict key (unreachable here, the subscript is
guarded by the membership test). -/
inductive PyErr where
  | typeError : PyErr
  | keyError : PyErr
deriving DecidableEq

/-- Contiguous-substring test: Python's `pat in hay` for strings. -/
def subAt : List Char → List Char → Bool
  | [], _ => true
  | _ :: _, [] => false
  | p :: ps, c :: cs => p == c && subAt ps cs

/-- `containsSub hay pat` is Python's `pat in hay` on strings. -/
def containsSub : List Char → List Char → Bool
  | [], pat => pat.isEmpty
  | c :: cs, pat => subAt pat (c :: cs) || containsSub cs pat

/-- Python's `key in data` for each JSON value `data`: key membership on a
dict, element equality on a list, substring on a string, and `TypeError`
on numbers, booleans and `None` (not iterable). -/
def pyContains (data : Json) (key : String) : Except PyErr Bool :=
  match data with
  | .obj kvs => .ok (kvs.any (fun p => p.1 == key))
  | .arr xs => .ok (xs.any (fun x => beqJson x (Json.str key)))
  | .str s => .ok (containsSub s.data key.data)
  | _ => .error .typeError

/-- Python's `data[key]` for a string key: dict lookup on an object
(`KeyError` when absent), `TypeError` everywhere else (string indices on a
list or string must be integers; numbers, booleans and `None` are not
subscriptable). -/
def pySubscript (data : Json) (key : String) : Except PyErr Json :=
  match data with
  | .obj kvs =>
    match kvs.find? (fun p => p.1 == key) with
    | some p => .ok p.2
    | none => .error .keyError
  | _ => .error .typeError

/-- The dict comprehension
`{key: data[key] for key in keys if key in data}`, iterating `keys`. -/
def dictCompAux (data : Json) : List String → Except PyErr (List (String × Json))
  | [] => .ok []
  | key :: rest =>
    match pyContains data key with
    | .error e => .error e
    | .ok false => dictCompAux data rest
    | .ok true =>
      match pySubscript data key with
      | .error e => .error e
      | .ok v => (dictCompAux data rest).map (fun r => (key, v) :: r)

/-- `filtered_data = {key: data[key] for key in fields_to_keep if key in data}`. -/
def dictComp (data : Json) : Except PyErr (List (String × Json)) :=
  dictCompAux data fields_to_keep

/-- The pure whitelist filter on an object's members: what `dictComp`
computes on `Json.obj kvs` (proved below as `dictComp_obj`). -/
def filterRecord (kvs : List (String × Json)) : List (String × Json) :=
  fields_to_keep.filterMap (fun key =>
    (kvs.find? (fun p => p.1 == key)).map (fun p => (key, p.2)))

/-! ### Text model: `str.strip`, file-line iteration -/

/-- The ASCII whitespace characters recognised by Python's `str.strip()`
(the non-ASCII Unicode spaces it also strips play no role here). -/
def isPySpace (c : Char) : Bool :=
  c = ' ' || c = '\t' || c = '\n' || c = '\r' || c = Char.ofNat 11 || c = Char.ofNat 12

/-- Python's `line.strip()`: removes leading and trailing whitespace. -/
def pyStrip (cs : List Char) : List Char :=
  ((cs.dropWhile isPySpace).reverse.dropWhile isPySpace).reverse

/-- Helper for `pyReadLines`: `acc` holds the current (reversed) partial
line. -/
def pyReadLinesAux : List Char → List Char → List (List Char)
  | acc, [] => if acc.isEmpty then [] else [acc.reverse]
  | acc, c :: rest =>
    if c = '\n' then (acc.reverse ++ ['\n']) :: pyReadLinesAux [] rest
    else pyReadLinesAux (c :: acc) rest

/-- Python's `for line in f` over a text file's content: splits after every
newline, keeping the newline on each line; a final fragment without a
trailing newline is still a line. -/
def pyReadLines (cs : List Char) : List (List Char) :=
  pyReadLinesAux [] cs

/-- The `json.loads` parameter: `Except.error ()` is a
`json.JSONDecodeError`. -/
abbrev Decoder : Type := List Char → Except Unit Json

/-- The read half of the per-file loop: for each line, `json.loads(line.strip())`
inside `try`; a `JSONDecodeError` prints a diagnostic and continues
(`continue`); on success the dict comprehension runs outside any handler,
so its `TypeError` propagates.  Returns the `processed_lines` list and the
number of parse-error diagnostics printed. -/
def readPhase (decode : Decoder) :
    List (List Char) → Except PyErr (List (List (String × Json)) × Nat)
  | [] => .ok ([], 0)
  | line :: rest =>
    match decode (pyStrip line) with
    | .error _ => (readPhase decode rest).map (fun p => (p.1, p.2 + 1))
    | .ok data =>
      match dictComp data with
      | .error e => .error e
      | .ok r => (readPhase decode rest).map (fun p => (r :: p.1, p.2))

/-! ### `json.dump` with default options -/

/-- Opening brace character. -/
def lbrace : Char := Char.ofNat 123

/-- Closing brace character. -/
def rbrace : Char := Char.ofNat 125

/-- Double-quote character. -/
def quoteCh : Char := Char.ofNat 34

/-- Backslash character. -/
def backslashCh : Char := Char.ofNat 92

/-- The sixteen lowercase hex digits. -/
def hexDigits : List Char := "0123456789abcdef".data

/-- Hex digit of `n % 16`. -/
def hexDigit (n : Nat) : Char :=
  hexDigits.getD (n % 16) '0'

/-- A `\uXXXX` escape of the low 16 bits of `n`. -/
def uEscape (n : Nat) : List Char :=
  [backslashCh, 'u', hexDigit (n / 4096), hexDigit (n / 256), hexDigit (n / 16), hexDigit n]

/-- How `json.dump` (with its default `ensure_ascii=True`) writes one
character of a string: shorthand escapes for the common control
characters, `\uXXXX` for the other controls and all non-ASCII characters
(a surrogate pair beyond the BMP), the character itself otherwise. -/
def escapeChar (c : Char) : List Char :=
  if c = quoteCh then [backslashCh, quoteCh]
  else if c = backslashCh then [backslashCh, backslashCh]
  else if c = '\n' then [backslashCh, 'n']
  else if c = '\r' then [backslashCh, 'r']
  else if c = '\t' then [backslashCh, 't']
  else if c = Char.ofNat 8 then [backslashCh, 'b']
  else if c = Char.ofNat 12 then [backslashCh, 'f']
  else if c.toNat < 32 then uEscape c.toNat
  else if c.toNat ≤ 126 then [c]
  else if c.toNat < 65536 then uEscape c.toNat
  else uEscape (55296 + (c.toNat - 65536) / 1024) ++ uEscape (56320 + (c.toNat - 65536) % 1024)

/-- Escape every character of a string body. -/
def escapeString (cs : List Char) : List Char :=
  (cs.map escapeChar).flatten

/-- Decimal digits of `n` in front of `acc`. -/
def natReprAux : Nat → List Char → List Char
  | n, acc =>
    if h : n < 10 then hexDigit n :: acc
    else natReprAux (n / 10) (hexDigit (n % 10) :: acc)
  termination_by n _ => n
  decreasing_by exact Nat.div_lt_self (by omega) (by omega)

/-- Decimal representation of a natural number. -/
def natRepr (n : Nat) : List Char :=
  natReprAux n []

/-- Python's `repr` of an integer, as `json.dump` writes it. -/
def intRepr : Int → List Char
  | .ofNat m => natRepr m
  | .negSucc m => '-' :: natRepr (m + 1)

mutual

/-- `json.dump(v, f)` with default options: `", "` between items, `": "`
between key and value, ASCII-escaped strings, no trailing newline. -/
def dumpChars : Json → List Char
  | .null => "null".data
  | .bool true => "true".data
  | .bool false => "false".data
  | .num n => intRepr n
  | .str s => quoteCh :: escapeString s.data ++ [quoteCh]
  | .arr xs => '[' :: dumpElems xs ++ [']']
  | .obj kvs => lbrace :: dumpMembers kvs ++ [rbrace]

/-- Array elements joined by `", "`. -/
def dumpElems : List Json → List Char
  | [] => []
  | [x] => dumpChars x
  | x :: y :: rest => dumpChars x ++ ',' :: ' ' :: dumpElems (y :: rest)

/-- Object members `"key": value` joined by `", "`. -/
def dumpMembers : List (String × Json) → List Char
  | [] => []
  | [(k, v)] => quoteCh :: escapeString k.data ++ quoteCh :: ':' :: ' ' :: dumpChars v
  | (k, v) :: m :: rest =>
    quoteCh :: escapeString k.data ++ quoteCh :: ':' :: ' ' :: dumpChars v ++
      ',' :: ' ' :: dumpMembers (m :: rest)

end

/-- The write half of the per-file loop: `open(file_path, 'w')` truncates
the file, then `json.dump(data, f); f.write('\n')` for each record in
order.  The new content is a function of the processed records alone. -/
def serializeRecords (recs : List (List (String × Json))) : List Char :=
  (recs.map (fun r => dumpChars (Json.obj r) ++ ['\n'])).flatten

/-- One iteration of the file loop on a file with content `content`:
read and transform every line in memory, and only if that completes,
truncate and rewrite the file.  Returns the new content and the number of
parse diagnostics; an uncaught `TypeError` aborts before anything is
written. -/
def processFileContent (decode : Decoder) (content : List Char) :
    Except PyErr (List Char × Nat) :=
  match readPhase decode (pyReadLines content) with
  | .error e => .error e
  | .ok (recs, d) => .ok (serializeRecords recs, d)

/-- `process_code_summarization_files()` on the files the glob matched, in
enumeration order, each given by its content: rewrites each file in turn;
an uncaught exception aborts the run.  Returns the new contents and the
total diagnostic count. -/
def process_code_summarization_files (decode : Decoder) :
    List (List Char) → Except PyErr (List (List Char) × Nat)
  | [] => .ok ([], 0)
  | c :: rest =>
    match processFileContent decode c with
    | .error e => .error e
    | .ok (c2, d) =>
      (process_code_summarization_files decode rest).map (fun p => (c2 :: p.1, d + p.2))

/-- Fault model for the I/O claims: a file either opens normally or raises
an `OSError` when opened for reading (`openFault`). -/
inductive FileFault where
  | ok : FileFault
  | openFault : FileFault
deriving DecidableEq

/-- A file in the fault model: its content and whether opening it faults. -/
structure SimFile where
  content : List Char
  fault : FileFault

/-- The run in the fault model, tracking the final content of every file.
No handler in the script catches `OSError` (the only `except` clause is
`json.JSONDecodeError`), so a file whose open faults — like an uncaught
`TypeError` — stops the loop at once: that file and every later file keep
their old content, and the run reports the abort.  Nothing is retried. -/
def runWithFaults (decode : Decoder) : List SimFile → List (List Char) × Bool
  | [] => ([], false)
  | f :: rest =>
    match f.fault with
    | .openFault => (f.content :: rest.map SimFile.content, true)
    | .ok =>
      match processFileContent decode f.content with
      | .error _ => (f.content :: rest.map SimFile.content, true)
      | .ok (c2, _) =>
        (c2 :: (runWithFaults decode rest).1, (runWithFaults decode rest).2)

/-- The record one input line contributes to the output, `none` for a
line whose decode fails (dropped with a diagnostic).  The non-object
decode results are also mapped to `none`; the theorems below only use
`lineRecord` under the precondition that every decoded line is an
object. -/
def lineRecord (decode : Decoder) (line : List Char) :
    Option (List (String × Json)) :=
  match decode (pyStrip line) with
  | .error _ => none
  | .ok (.obj kvs) => some (filterRecord kvs)
  | .ok _ => none

/-- Whether `json.loads(line.strip())` raises a `JSONDecodeError`. -/
def lineFails (decode : Decoder) (line : List Char) : Bool :=
  match decode (pyStrip line) with
  | .error _ => true
  | .ok _ => false

/-! ### Concrete fixtures used by the witnesses -/

/-- A finite-table decoder: behaves like `json.loads` on the finitely many
inputs a witness feeds it (each table entry is checked against the real
`json.loads` behaviour), and reports a decode error elsewhere — just as
`json.loads` rejects the non-JSON witness lines. -/
def tableDecode (table : List (List Char × Json)) : Decoder := fun cs =>
  match table.find? (fun p => p.1 == cs) with
  | some p => .ok p.2
  | none => .error ()

/-- `json.loads` fails on every input: the restriction of `json.loads` to
inputs that are not valid JSON (such as the empty string). -/
def failDecode : Decoder := fun _ => .error ()

/-- A sample decoded record: `⦃"task": "sum", "extra": 1, "url": "u1"⦄`. -/
def sampleKvs : List (String × Json) :=
  [("task", Json.str "sum"), ("extra", Json.num 1), ("url", Json.str "u1")]

/-- A sample record already restricted to the whitelist. -/
def sampleClean : List (String × Json) := [("task", Json.str "sum")]

/-- Decoder for witnesses that parse the serialized `sampleKvs` line, as
`json.loads` parses exactly the text `json.dump` wrote. -/
def decA : Decoder := fun cs =>
  if cs = dumpChars (Json.obj sampleKvs) then .ok (Json.obj sampleKvs) else .error ()

/-- Decoder for witnesses that parse the serialized `sampleClean` line. -/
def decC : Decoder := fun cs =>
  if cs = dumpChars (Json.obj sampleClean) then .ok (Json.obj sampleClean) else .error ()

/-- Decoder that parses the line `"hello"` to the JSON string `hello`. -/
def decStr : Decoder := fun cs =>
  if cs = dumpChars (Json.str "hello") then .ok (Json.str "hello") else .error ()

/-- Decoder that parses the line `5` to the JSON number 5, as `json.loads`
does. -/
def decNum : Decoder := tableDecode [(['5'], Json.num 5)]

/-- A one-line file already in filtered form: the serialization of
`sampleClean`. -/
def fileC : List Char := serializeRecords [sampleClean]

/-- A two-line file: the serialized `sampleKvs` record and the invalid
line `x`. -/
def fileC3 : List Char := dumpChars (Json.obj sampleKvs) ++ '\n' :: 'x' :: '\n' :: []

/-- A one-line file: the serialized `sampleKvs` record. -/
def fileA : List Char := dumpChars (Json.obj sampleKvs) ++ ['\n']

/-- Fault-model fixtures: one healthy empty file before the fault. -/
def preC8 : List SimFile := [⟨[], FileFault.ok⟩]

/-- Fault-model fixtures: the file whose open raises `OSError`. -/
def faultC8 : SimFile := ⟨['x'], FileFault.openFault⟩

/-- Fault-model fixtures: one file after the fault, never reached. -/
def postC8 : List SimFile := [⟨['y'], FileFault.ok⟩]

/-! ### Theorems: the dict comprehension and the whitelist filter -/

theorem dictCompAux_obj (kvs : List (String × Json)) (keys : List String) :
    dictCompAux (Json.obj kvs) keys =
      .ok (keys.filterMap (fun key =>
        (kvs.find? (fun p => p.1 == key)).map (fun p => (key, p.2)))) := by
  induction keys with
  | nil => rfl
  | cons key rest ih =>
    simp only [dictCompAux, pyContains, pySubscript, List.filterMap_cons]
    rcases hfind : kvs.find? (fun p => p.1 == key) with _ | q
    · have hany : kvs.any (fun p => p.1 == key) = false := by
        rw [List.any_eq_false]
        intro p hp
        have := List.find?_eq_none.mp hfind p hp
        simpa using this
      rw [hany, hfind, ih]
      simp
    · have hany : kvs.any (fun p => p.1 == key) = true := by
        rw [List.any_eq_true]
        refine ⟨q, List.mem_of_find?_eq_some hfind, ?_⟩
        exact List.find?_some (p := fun r : String × Json => r.1 == key) hfind
      rw [hany, hfind, ih]
      rfl

theorem dictComp_obj (kvs : List (String × Json)) :
    dictComp (Json.obj kvs) = .ok (filterRecord kvs) :=
  dictCompAux_obj kvs fields_to_keep

theorem find?_filterMapKeys (kvs : List (String × Json)) (keys : List String) (k : String) :
    (keys.filterMap (fun key =>
        (kvs.find? (fun p => p.1 == key)).map (fun p => (key, p.2)))).find?
        (fun p => p.1 == k) =
      if k ∈ keys then (kvs.find? (fun p => p.1 == k)).map (fun p => (k, p.2))
      else none := by
  induction keys with
  | nil => simp
  | cons key rest ih =>
    rcases hfind : kvs.find? (fun p => p.1 == key) with _ | q
    · rw [List.filterMap_cons_none (by simp [hfind]), ih]
      by_cases hk : k = key
      · subst hk
        simp [hfind]
      · simp [List.mem_cons, hk]
    · rw [List.filterMap_cons_some (b := (key, q.2)) (by simp [hfind])]
      by_cases hk : k = key
      · subst hk
        rw [List.find?_cons_of_pos _ (by simp)]
        simp [hfind]
      · rw [List.find?_cons_of_neg _ (by simp [Ne.symm hk]), ih]
        simp [List.mem_cons, hk]

theorem find?_filterRecord (kvs : List (String × Json)) (k : String) :
    (filterRecord kvs).find? (fun p => p.1 == k) =
      if k ∈ fields_to_keep then (kvs.find? (fun p => p.1 == k)).map (fun p => (k, p.2))
      else none :=
  find?_filterMapKeys kvs fields_to_keep k

/-- The key set of the filtered record is the intersection of the original
key set with the whitelist. -/
theorem mem_keys_filterRecord (kvs : List (String × Json)) (k : String) :
    k ∈ (filterRecord kvs).map Prod.fst ↔
      k ∈ kvs.map Prod.fst ∧ k ∈ fields_to_keep := by
  constructor
  · rintro hk
    rcases List.mem_map.mp hk with ⟨p, hp, hpk⟩
    rcases List.mem_filterMap.mp hp with ⟨key, hkey, hf⟩
    rcases hq : kvs.find? (fun r => r.1 == key) with _ | q
    · rw [hq] at hf
      simp at hf
    · rw [hq] at hf
      simp only [Option.map_some', Option.some.injEq] at hf
      subst hf
      subst hpk
      exact ⟨List.mem_map.mpr ⟨q, List.mem_of_find?_eq_some hq,
        by simpa using List.find?_some (p := fun r : String × Json => r.1 == key) hq⟩, hkey⟩
  · rintro ⟨hmem, hwl⟩
    rcases List.mem_map.mp hmem with ⟨q, hq, hqk⟩
    have hsome : (kvs.find? (fun r => r.1 == k)).isSome := by
      rw [List.find?_isSome]
      exact ⟨q, hq, by simp [hqk]⟩
    rcases hfind : kvs.find? (fun r => r.1 == k) with _ | q'
    · rw [hfind] at hsome
      simp at hsome
    · refine List.mem_map.mpr ⟨(k, q'.2), ?_, rfl⟩
      exact List.mem_filterMap.mpr ⟨k, hwl, by rw [hfind]; rfl⟩

/-- Surviving values are read back unchanged: subscripting the filtered
record agrees with subscripting the original. -/
theorem pySubscript_filterRecord (kvs : List (String × Json)) (k : String)
    (hk : k ∈ fields_to_keep) :
    pySubscript (Json.obj (filterRecord kvs)) k = pySubscript (Json.obj kvs) k := by
  simp only [pySubscript, find?_filterRecord, if_pos hk]
  cases hq : kvs.find? (fun p => p.1 == k) <;> simp [hq]

/-- Filtering an already-filtered record is the identity. -/
theorem filterRecord_idem (kvs : List (String × Json)) :
    filterRecord (filterRecord kvs) = filterRecord kvs := by
  unfold filterRecord
  refine List.filterMap_congr (fun key hkey => ?_)
  rw [show (fields_to_keep.filterMap (fun key =>
      (kvs.find? (fun p => p.1 == key)).map (fun p => (key, p.2)))) = filterRecord kvs
    from rfl]
  rw [find?_filterRecord kvs key, if_pos hkey]
  cases hq : kvs.find? (fun p => p.1 == key) <;> simp [hq]

theorem filterRecord_nil : filterRecord [] = [] := rfl

/-- A successful dict comprehension over a non-dict container can only
have skipped every key (finding one raises `TypeError` at the subscript),
so it returns the empty dict. -/
theorem dictCompAux_nonobj (data : Json) (keys : List String)
    (hsub : ∀ k, pySubscript data k = .error PyErr.typeError)
    {r : List (String × Json)} (h : dictCompAux data keys = .ok r) : r = [] := by
  induction keys with
  | nil => simpa [dictCompAux] using h.symm
  | cons key rest ih =>
    rw [dictCompAux] at h
    rcases hc : pyContains data key with e | b
    · rw [hc] at h
      exact absurd h (by simp)
    · rw [hc] at h
      cases b with
      | false => exact ih h
      | true =>
        rw [hsub key] at h
        exact absurd h (by simp)

/-- Every record a successful dict comprehension produces is a fixed point
of the whitelist filter. -/
theorem dictComp_fixed (data : Json) {r : List (String × Json)}
    (h : dictComp data = .ok r) : filterRecord r = r := by
  cases data with
  | obj kvs =>
    rw [dictComp_obj] at h
    cases h
    exact filterRecord_idem kvs
  | str s =>
    have : r = [] := dictCompAux_nonobj (Json.str s) fields_to_keep (fun k => rfl) h
    simp [this, filterRecord_nil]
  | arr xs =>
    have : r = [] := dictCompAux_nonobj (Json.arr xs) fields_to_keep (fun k => rfl) h
    simp [this, filterRecord_nil]
  | null => exact absurd h (by simp [dictComp, dictCompAux, fields_to_keep, pyContains])
  | bool b => exact absurd h (by simp [dictComp, dictCompAux, fields_to_keep, pyContains])
  | num n => exact absurd h (by simp [dictComp, dictCompAux, fields_to_keep, pyContains])

/-! ### Theorems: the read phase -/

theorem readPhase_cons_fail (decode : Decoder) (line : List Char)
    (rest : List (List Char)) (e : Unit)
    (h : decode (pyStrip line) = .error e) :
    readPhase decode (line :: rest) =
      (readPhase decode rest).map (fun p => (p.1, p.2 + 1)) := by
  rw [readPhase, h]

theorem readPhase_cons_dec (decode : Decoder) (line : List Char)
    (rest : List (List Char)) (v : Json)
    (h : decode (pyStrip line) = .ok v) :
    readPhase decode (line :: rest) =
      match dictComp v with
      | .error e => .error e
      | .ok r => (readPhase decode rest).map (fun p => (r :: p.1, p.2)) := by
  rw [readPhase, h]

theorem readPhase_cons_obj (decode : Decoder) (line : List Char)
    (rest : List (List Char)) (kvs : List (String × Json))
    (h : decode (pyStrip line) = .ok (Json.obj kvs)) :
    readPhase decode (line :: rest) =
      (readPhase decode rest).map (fun p => (filterRecord kvs :: p.1, p.2)) := by
  rw [readPhase_cons_dec decode line rest _ h, dictComp_obj]

theorem lineFails_eq_true (decode : Decoder) (line : List Char) (e : Unit)
    (h : decode (pyStrip line) = .error e) : lineFails decode line = true := by
  rw [lineFails, h]

theorem lineFails_eq_false (decode : Decoder) (line : List Char) (v : Json)
    (h : decode (pyStrip line) = .ok v) : lineFails decode line = false := by
  rw [lineFails, h]

theorem lineRecord_eq_none (decode : Decoder) (line : List Char) (e : Unit)
    (h : decode (pyStrip line) = .error e) : lineRecord decode line = none := by
  rw [lineRecord, h]

theorem lineRecord_eq_obj (decode : Decoder) (line : List Char)
    (kvs : List (String × Json)) (h : decode (pyStrip line) = .ok (Json.obj kvs)) :
    lineRecord decode line = some (filterRecord kvs) := by
  rw [lineRecord, h]

/-- Under the precondition that every successfully decoded line is a JSON
object, the read phase succeeds, produces exactly the records of the
decodable lines in input order, and prints one diagnostic per failing
line. -/
theorem readPhase_ok (decode : Decoder) (lines : List (List Char))
    (hobj : ∀ l ∈ lines, ∀ v, decode (pyStrip l) = .ok v →
      ∃ kvs, v = Json.obj kvs) :
    readPhase decode lines =
      .ok (lines.filterMap (lineRecord decode), lines.countP (lineFails decode)) := by
  induction lines with
  | nil => rfl
  | cons line rest ih =>
    have ihr := ih (fun l hl => hobj l (List.mem_cons_of_mem _ hl))
    rcases hd : decode (pyStrip line) with e | v
    · rw [readPhase_cons_fail decode line rest e hd, ihr,
        List.filterMap_cons_none (lineRecord_eq_none decode line e hd),
        List.countP_cons, lineFails_eq_true decode line e hd]
      simp [Except.map]
    · rcases hobj line (List.mem_cons_self line rest) v hd with ⟨kvs, hv⟩
      subst hv
      rw [readPhase_cons_obj decode line rest kvs hd, ihr,
        List.filterMap_cons_some (lineRecord_eq_obj decode line kvs hd),
        List.countP_cons, lineFails_eq_false decode line _ hd]
      simp [Except.map]

/-- Record count plus diagnostic count equals line count, under the
all-objects precondition. -/
theorem lineRecord_length (decode : Decoder) (lines : List (List Char))
    (hobj : ∀ l ∈ lines, ∀ v, decode (pyStrip l) = .ok v →
      ∃ kvs, v = Json.obj kvs) :
    (lines.filterMap (lineRecord decode)).length +
      lines.countP (lineFails decode) = lines.length := by
  induction lines with
  | nil => rfl
  | cons line rest ih =>
    have ihr := ih (fun l hl => hobj l (List.mem_cons_of_mem _ hl))
    rcases hd : decode (pyStrip line) with e | v
    · rw [List.filterMap_cons_none (lineRecord_eq_none decode line e hd),
        List.countP_cons, lineFails_eq_true decode line e hd]
      simp only [List.length_cons]
      simp
      omega
    · rcases hobj line (List.mem_cons_self line rest) v hd with ⟨kvs, hv⟩
      subst hv
      rw [List.filterMap_cons_some (lineRecord_eq_obj decode line kvs hd),
        List.countP_cons, lineFails_eq_false decode line _ hd]
      simp only [List.length_cons]
      simp
      omega

/-- A prefix that reads successfully commutes with `++`. -/
theorem readPhase_append_ok (decode : Decoder) (xs ys : List (List Char))
    (r1 : List (List (String × Json))) (d1 : Nat)
    (h : readPhase decode xs = .ok (r1, d1)) :
    readPhase decode (xs ++ ys) =
      (readPhase decode ys).map (fun p => (r1 ++ p.1, d1 + p.2)) := by
  induction xs generalizing r1 d1 with
  | nil =>
    rw [readPhase] at h
    cases h
    simp only [List.nil_append]
    rcases hy : readPhase decode ys with e | p
    · rfl
    · simp [Except.map]
  | cons line rest ih =>
    rw [List.cons_append]
    rcases hd : decode (pyStrip line) with e | v
    · rw [readPhase_cons_fail decode line rest e hd] at h
      rw [readPhase_cons_fail decode line (rest ++ ys) e hd]
      rcases hr : readPhase decode rest with e2 | p2
      · rw [hr] at h
        exact absurd h (by simp [Except.map])
      · rw [hr] at h
        simp only [Except.map, Except.ok.injEq, Prod.mk.injEq] at h
        rw [ih p2.1 p2.2 (by rw [hr])]
        rcases hy : readPhase decode ys with e3 | p3
        · rfl
        · simp only [Except.map, Except.ok.injEq, Prod.mk.injEq]
          refine ⟨by rw [← h.1], by omega⟩
    · rw [readPhase_cons_dec decode line rest v hd] at h
      rw [readPhase_cons_dec decode line (rest ++ ys) v hd]
      rcases hc : dictComp v with e2 | r
      · rw [hc] at h
        exact absurd h (by simp)
      · rw [hc] at h
        simp only at h
        rcases hr : readPhase decode rest with e2 | p2
        · rw [hr] at h
          exact absurd h (by simp [Except.map])
        · rw [hr] at h
          simp only [Except.map, Except.ok.injEq, Prod.mk.injEq] at h
          simp only
          rw [ih p2.1 p2.2 (by rw [hr])]
          rcases hy : readPhase decode ys with e3 | p3
          · rfl
          · simp only [Except.map, Except.ok.injEq, Prod.mk.injEq]
            refine ⟨?_, by omega⟩
            rw [← h.1]
            simp

/-! ### Theorems: the serializer writes newline-free chunks -/

theorem hexDigit_ne_newline (n : Nat) : hexDigit n ≠ '\n' := by
  have hb : ∀ m, m < 16 → hexDigits.getD m '0' ≠ '\n' := by decide
  exact hb (n % 16) (Nat.mod_lt n (by omega))

theorem nl_notin_nil : '\n' ∉ ([] : List Char) := by simp

theorem nl_notin_cons {c : Char} {l : List Char} (h1 : '\n' ≠ c) (h2 : '\n' ∉ l) :
    '\n' ∉ c :: l := by
  intro hm
  rcases List.mem_cons.mp hm with h | h
  · exact h1 h
  · exact h2 h

theorem nl_notin_append {l1 l2 : List Char} (h1 : '\n' ∉ l1) (h2 : '\n' ∉ l2) :
    '\n' ∉ l1 ++ l2 := by
  intro hm
  rcases List.mem_append.mp hm with h | h
  · exact h1 h
  · exact h2 h

theorem uEscape_no_newline (n : Nat) : '\n' ∉ uEscape n :=
  nl_notin_cons (by decide) (nl_notin_cons (by decide)
    (nl_notin_cons (Ne.symm (hexDigit_ne_newline _))
      (nl_notin_cons (Ne.symm (hexDigit_ne_newline _))
        (nl_notin_cons (Ne.symm (hexDigit_ne_newline _))
          (nl_notin_cons (Ne.symm (hexDigit_ne_newline _)) nl_notin_nil)))))

theorem escapeChar_no_newline (c : Char) : '\n' ∉ escapeChar c := by
  rw [escapeChar]
  by_cases h1 : c = quoteCh
  · rw [if_pos h1]; decide
  rw [if_neg h1]
  by_cases h2 : c = backslashCh
  · rw [if_pos h2]; decide
  rw [if_neg h2]
  by_cases h3 : c = '\n'
  · rw [if_pos h3]; decide
  rw [if_neg h3]
  by_cases h4 : c = '\r'
  · rw [if_pos h4]; decide
  rw [if_neg h4]
  by_cases h5 : c = '\t'
  · rw [if_pos h5]; decide
  rw [if_neg h5]
  by_cases h6 : c = Char.ofNat 8
  · rw [if_pos h6]; decide
  rw [if_neg h6]
  by_cases h7 : c = Char.ofNat 12
  · rw [if_pos h7]; decide
  rw [if_neg h7]
  by_cases h8 : c.toNat < 32
  · rw [if_pos h8]; exact uEscape_no_newline _
  rw [if_neg h8]
  by_cases h9 : c.toNat ≤ 126
  · rw [if_pos h9]
    exact nl_notin_cons (fun hh => h3 hh.symm) nl_notin_nil
  rw [if_neg h9]
  by_cases h10 : c.toNat < 65536
  · rw [if_pos h10]; exact uEscape_no_newline _
  rw [if_neg h10]
  exact nl_notin_append (uEscape_no_newline _) (uEscape_no_newline _)

theorem escapeString_no_newline (cs : List Char) : '\n' ∉ escapeString cs := by
  intro h
  rw [escapeString] at h
  rcases List.mem_flatten.mp h with ⟨l, hl, hc⟩
  rcases List.mem_map.mp hl with ⟨c, _, hcl⟩
  subst hcl
  exact escapeChar_no_newline c hc

theorem natReprAux_no_newline (n : Nat) (acc : List Char) (hacc : '\n' ∉ acc) :
    '\n' ∉ natReprAux n acc := by
  induction n using Nat.strong_induction_on generalizing acc with
  | _ n ih =>
    rw [natReprAux]
    split_ifs with h
    · exact nl_notin_cons (Ne.symm (hexDigit_ne_newline n)) hacc
    · exact ih (n / 10) (Nat.div_lt_self (by omega) (by omega)) _
        (nl_notin_cons (Ne.symm (hexDigit_ne_newline _)) hacc)

theorem natRepr_no_newline (n : Nat) : '\n' ∉ natRepr n :=
  natReprAux_no_newline n [] (by simp)

theorem intRepr_no_newline (n : Int) : '\n' ∉ intRepr n := by
  cases n with
  | ofNat m => exact natRepr_no_newline m
  | negSucc m => exact nl_notin_cons (by decide) (natRepr_no_newline (m + 1))

mutual

theorem dumpChars_no_newline : (j : Json) → '\n' ∉ dumpChars j
  | .null => by rw [dumpChars]; decide
  | .bool true => by rw [dumpChars]; decide
  | .bool false => by rw [dumpChars]; decide
  | .num n => by rw [dumpChars]; exact intRepr_no_newline n
  | .str s => by
    rw [dumpChars]
    exact nl_notin_cons (by decide)
      (nl_notin_append (escapeString_no_newline s.data)
        (nl_notin_cons (by decide) nl_notin_nil))
  | .arr xs => by
    rw [dumpChars]
    exact nl_notin_cons (by decide)
      (nl_notin_append (dumpElems_no_newline xs)
        (nl_notin_cons (by decide) nl_notin_nil))
  | .obj kvs => by
    rw [dumpChars]
    exact nl_notin_cons (by decide)
      (nl_notin_append (dumpMembers_no_newline kvs)
        (nl_notin_cons (by decide) nl_notin_nil))

theorem dumpElems_no_newline : (xs : List Json) → '\n' ∉ dumpElems xs
  | [] => by rw [dumpElems]; simp
  | [x] => by rw [dumpElems]; exact dumpChars_no_newline x
  | x :: y :: rest => by
    rw [dumpElems]
    exact nl_notin_append (dumpChars_no_newline x)
      (nl_notin_cons (by decide)
        (nl_notin_cons (by decide) (dumpElems_no_newline (y :: rest))))

theorem dumpMembers_no_newline : (kvs : List (String × Json)) → '\n' ∉ dumpMembers kvs
  | [] => by rw [dumpMembers]; simp
  | [(k, v)] => by
    rw [dumpMembers]
    refine nl_notin_append ?_ ?_
    · exact nl_notin_cons (by decide) (escapeString_no_newline k.data)
    · exact nl_notin_cons (by decide) (nl_notin_cons (by decide)
        (nl_notin_cons (by decide) (dumpChars_no_newline v)))
  | (k, v) :: m :: rest => by
    rw [dumpMembers]
    refine nl_notin_append (nl_notin_append ?_ ?_) ?_
    · exact nl_notin_cons (by decide) (escapeString_no_newline k.data)
    · exact nl_notin_cons (by decide) (nl_notin_cons (by decide)
        (nl_notin_cons (by decide) (dumpChars_no_newline v)))
    · exact nl_notin_cons (by decide) (nl_notin_cons (by decide)
        (dumpMembers_no_newline (m :: rest)))

end

theorem dumpChars_obj_shape (kvs : List (String × Json)) :
    dumpChars (Json.obj kvs) = lbrace :: dumpMembers kvs ++ [rbrace] := by
  rw [dumpChars]

/-- Stripping a serialized record line removes exactly the trailing
newline: a dumped object starts with `{` and ends with `}`, neither of
which is whitespace. -/
theorem pyStrip_dump_obj (kvs : List (String × Json)) :
    pyStrip (dumpChars (Json.obj kvs) ++ ['\n']) = dumpChars (Json.obj kvs) := by
  rw [dumpChars_obj_shape, pyStrip]
  have h1 : (lbrace :: dumpMembers kvs ++ [rbrace]) ++ ['\n'] =
      lbrace :: (dumpMembers kvs ++ [rbrace] ++ ['\n']) := by simp
  rw [h1, List.dropWhile_cons_of_neg (by decide)]
  have h2 : (lbrace :: (dumpMembers kvs ++ [rbrace] ++ ['\n'])).reverse =
      '\n' :: rbrace :: ((dumpMembers kvs).reverse ++ [lbrace]) := by simp
  rw [h2, List.dropWhile_cons_of_pos (by decide),
    List.dropWhile_cons_of_neg (by decide)]
  simp

theorem dumpChars_str_shape (s : String) :
    dumpChars (Json.str s) = quoteCh :: escapeString s.data ++ [quoteCh] := by
  rw [dumpChars]

/-- Stripping a serialized string line removes exactly the trailing
newline: a dumped string starts and ends with a double quote. -/
theorem pyStrip_dump_str (s : String) :
    pyStrip (dumpChars (Json.str s) ++ ['\n']) = dumpChars (Json.str s) := by
  rw [dumpChars_str_shape, pyStrip]
  have h1 : (quoteCh :: escapeString s.data ++ [quoteCh]) ++ ['\n'] =
      quoteCh :: (escapeString s.data ++ [quoteCh] ++ ['\n']) := by simp
  rw [h1, List.dropWhile_cons_of_neg (by decide)]
  have h2 : (quoteCh :: (escapeString s.data ++ [quoteCh] ++ ['\n'])).reverse =
      '\n' :: quoteCh :: ((escapeString s.data).reverse ++ [quoteCh]) := by simp
  rw [h2, List.dropWhile_cons_of_pos (by decide),
    List.dropWhile_cons_of_neg (by decide)]
  simp

/-- A character list that does not start with `⦃` is not the dump of an
object. -/
theorem ne_dump_obj_of_head (c : Char) (cs : List Char)
    (kvs : List (String × Json)) (hc : c ≠ lbrace) :
    (c :: cs) ≠ dumpChars (Json.obj kvs) := by
  rw [dumpChars_obj_shape]
  intro h
  injection h with h1 _
  exact hc h1

/-- Splitting off the first newline-terminated, newline-free chunk. -/
theorem pyReadLinesAux_chunk (l : List Char) (hl : '\n' ∉ l) :
    ∀ acc rest, pyReadLinesAux acc (l ++ '\n' :: rest) =
      (acc.reverse ++ l ++ ['\n']) :: pyReadLinesAux [] rest := by
  induction l with
  | nil =>
    intro acc rest
    rw [List.nil_append, pyReadLinesAux, if_pos rfl]
    simp
  | cons c l ih =>
    intro acc rest
    have hc : c ≠ '\n' := fun h => hl (h ▸ List.mem_cons_self c l)
    rw [List.cons_append, pyReadLinesAux, if_neg hc,
      ih (fun h => hl (List.mem_cons_of_mem c h)) (c :: acc) rest]
    simp

/-- Reading back a serialized file yields one line per record, each the
record's dump plus the terminating newline, in order. -/
theorem pyReadLines_serializeRecords (recs : List (List (String × Json))) :
    pyReadLines (serializeRecords recs) =
      recs.map (fun r => dumpChars (Json.obj r) ++ ['\n']) := by
  induction recs with
  | nil => rfl
  | cons r rest ih =>
    rw [serializeRecords, List.map_cons, List.flatten_cons]
    have hshape : (dumpChars (Json.obj r) ++ ['\n']) ++
        (rest.map (fun r => dumpChars (Json.obj r) ++ ['\n'])).flatten =
        dumpChars (Json.obj r) ++
          '\n' :: (rest.map (fun r => dumpChars (Json.obj r) ++ ['\n'])).flatten := by
      simp
    rw [pyReadLines, hshape,
      pyReadLinesAux_chunk (dumpChars (Json.obj r)) (dumpChars_no_newline _) [] _]
    have : pyReadLinesAux []
        ((rest.map (fun r => dumpChars (Json.obj r) ++ ['\n'])).flatten) =
        rest.map (fun r => dumpChars (Json.obj r) ++ ['\n']) := by
      rw [← serializeRecords, ← pyReadLines, ih]
    rw [this]
    simp

/-- Every record a successful read phase collects is a fixed point of the
whitelist filter. -/
theorem readPhase_filtered (decode : Decoder) (lines : List (List Char))
    (recs : List (List (String × Json))) (d : Nat)
    (h : readPhase decode lines = .ok (recs, d)) :
    ∀ r ∈ recs, filterRecord r = r := by
  induction lines generalizing recs d with
  | nil =>
    rw [readPhase] at h
    cases h
    intro r hr
    cases hr
  | cons line rest ih =>
    rcases hd : decode (pyStrip line) with e | v
    · rw [readPhase_cons_fail decode line rest e hd] at h
      rcases hr : readPhase decode rest with e2 | p2
      · rw [hr] at h
        exact absurd h (by simp [Except.map])
      · rw [hr] at h
        simp only [Except.map, Except.ok.injEq, Prod.mk.injEq] at h
        intro r hrr
        exact ih p2.1 p2.2 (by rw [hr]) r (by rw [← h.1] at hrr; exact hrr)
    · rw [readPhase_cons_dec decode line rest v hd] at h
      rcases hc : dictComp v with e2 | r0
      · rw [hc] at h
        exact absurd h (by simp)
      · rw [hc] at h
        simp only at h
        rcases hr : readPhase decode rest with e2 | p2
        · rw [hr] at h
          exact absurd h (by simp [Except.map])
        · rw [hr] at h
          simp only [Except.map, Except.ok.injEq, Prod.mk.injEq] at h
          intro r hrr
          rw [← h.1] at hrr
          rcases List.mem_cons.mp hrr with hrr | hrr
          · subst hrr
            exact dictComp_fixed v hc
          · exact ih p2.1 p2.2 (by rw [hr]) r hrr

/-- Re-reading a file whose content the script just wrote reproduces the
same records with no diagnostics, provided the decoder parses each dumped
record back to itself (as `json.loads` does). -/
theorem readPhase_roundTrip (decode : Decoder)
    (recs : List (List (String × Json)))
    (hfix : ∀ r ∈ recs, filterRecord r = r)
    (hround : ∀ r ∈ recs, decode (dumpChars (Json.obj r)) = .ok (Json.obj r)) :
    readPhase decode (recs.map (fun r => dumpChars (Json.obj r) ++ ['\n'])) =
      .ok (recs, 0) := by
  induction recs with
  | nil => rfl
  | cons r rest ih =>
    rw [List.map_cons]
    have hdec : decode (pyStrip (dumpChars (Json.obj r) ++ ['\n'])) =
        .ok (Json.obj r) := by
      rw [pyStrip_dump_obj]
      exact hround r (List.mem_cons_self r rest)
    rw [readPhase_cons_obj decode _ _ r hdec,
      ih (fun x hx => hfix x (List.mem_cons_of_mem _ hx))
        (fun x hx => hround x (List.mem_cons_of_mem _ hx))]
    rw [Except.map, hfix r (List.mem_cons_self r rest)]

/-! ### Remaining helper lemmas -/

theorem dictComp_null : dictComp Json.null = .error PyErr.typeError := rfl

theorem dictComp_bool (b : Bool) : dictComp (Json.bool b) = .error PyErr.typeError := rfl

theorem dictComp_num (n : Int) : dictComp (Json.num n) = .error PyErr.typeError := rfl

theorem dictCompAux_str_nokey (s : String) (keys : List String)
    (h : ∀ k ∈ keys, containsSub s.data k.data = false) :
    dictCompAux (Json.str s) keys = .ok [] := by
  induction keys with
  | nil => rfl
  | cons key rest ih =>
    have hc : pyContains (Json.str s) key = .ok false := by
      rw [pyContains, h key (List.mem_cons_self key rest)]
    rw [dictCompAux, hc]
    exact ih (fun k hk => h k (List.mem_cons_of_mem _ hk))

theorem dictCompAux_arr_nokey (xs : List Json) (keys : List String)
    (h : ∀ k ∈ keys, xs.any (fun x => beqJson x (Json.str k)) = false) :
    dictCompAux (Json.arr xs) keys = .ok [] := by
  induction keys with
  | nil => rfl
  | cons key rest ih =>
    have hc : pyContains (Json.arr xs) key = .ok false := by
      rw [pyContains, h key (List.mem_cons_self key rest)]
    rw [dictCompAux, hc]
    exact ih (fun k hk => h k (List.mem_cons_of_mem _ hk))

theorem processFileContent_of_readPhase (decode : Decoder) (c : List Char)
    (recs : List (List (String × Json))) (d : Nat)
    (h : readPhase decode (pyReadLines c) = .ok (recs, d)) :
    processFileContent decode c = .ok (serializeRecords recs, d) := by
  rw [processFileContent, h]

theorem processFileContent_of_readPhase_err (decode : Decoder) (c : List Char)
    (e : PyErr) (h : readPhase decode (pyReadLines c) = .error e) :
    processFileContent decode c = .error e := by
  rw [processFileContent, h]

theorem runWithFaults_cons_openFault (decode : Decoder) (f : SimFile)
    (rest : List SimFile) (hf : f.fault = .openFault) :
    runWithFaults decode (f :: rest) = (f.content :: rest.map SimFile.content, true) := by
  rw [runWithFaults, hf]

theorem runWithFaults_cons_err (decode : Decoder) (f : SimFile)
    (rest : List SimFile) (e : PyErr) (hf : f.fault = .ok)
    (hp : processFileContent decode f.content = .error e) :
    runWithFaults decode (f :: rest) = (f.content :: rest.map SimFile.content, true) := by
  rw [runWithFaults, hf, hp]

theorem runWithFaults_cons_ok (decode : Decoder) (f : SimFile)
    (rest : List SimFile) (c2 : List Char) (d : Nat) (hf : f.fault = .ok)
    (hp : processFileContent decode f.content = .ok (c2, d)) :
    runWithFaults decode (f :: rest) =
      (c2 :: (runWithFaults decode rest).1, (runWithFaults decode rest).2) := by
  rw [runWithFaults, hf, hp]

/-! ### The claims -/

/-- C1: for every input line that decodes to a JSON object `O`, the record
appended to the output for that line is the whitelist filter of `O`, and
its key set is exactly `keys(O) ∩ whitelist`: no key outside the whitelist
survives, no key is added, and whitelisted keys absent from `O` are
omitted rather than null-filled. -/
theorem C1_key_subset (decode : Decoder) (line : List Char)
    (kvs : List (String × Json)) (rest : List (List Char))
    (hdec : decode (pyStrip line) = .ok (Json.obj kvs)) :
    readPhase decode (line :: rest) =
      (readPhase decode rest).map (fun p => (filterRecord kvs :: p.1, p.2))
    ∧ ∀ k : String, k ∈ (filterRecord kvs).map Prod.fst ↔
        (k ∈ kvs.map Prod.fst ∧ k ∈ fields_to_keep) :=
  ⟨readPhase_cons_obj decode line rest kvs hdec,
   fun k => mem_keys_filterRecord kvs k⟩

/-- Witness for C1 at the concrete record `sampleKvs`. -/
theorem C1_key_subset_witness :
    (readPhase decA (fileA :: []) =
      (readPhase decA []).map (fun p => (filterRecord sampleKvs :: p.1, p.2)))
    ∧ ∀ k : String, k ∈ (filterRecord sampleKvs).map Prod.fst ↔
        (k ∈ sampleKvs.map Prod.fst ∧ k ∈ fields_to_keep) :=
  C1_key_subset decA fileA sampleKvs []
    (by
      show decA (pyStrip (dumpChars (Json.obj sampleKvs) ++ ['\n'])) =
        .ok (Json.obj sampleKvs)
      rw [pyStrip_dump_obj]
      exact if_pos rfl)

/-- C2: values that survive the filter are copied verbatim: for every key
present in both the original object and the appended record, subscripting
the record agrees with subscripting the original. -/
theorem C2_values_verbatim (decode : Decoder) (line : List Char)
    (kvs : List (String × Json)) (rest : List (List Char))
    (hdec : decode (pyStrip line) = .ok (Json.obj kvs)) :
    readPhase decode (line :: rest) =
      (readPhase decode rest).map (fun p => (filterRecord kvs :: p.1, p.2))
    ∧ ∀ k : String, k ∈ (filterRecord kvs).map Prod.fst →
        pySubscript (Json.obj (filterRecord kvs)) k = pySubscript (Json.obj kvs) k :=
  ⟨readPhase_cons_obj decode line rest kvs hdec,
   fun k hk => pySubscript_filterRecord kvs k ((mem_keys_filterRecord kvs k).mp hk).2⟩

/-- Witness for C2 at the concrete record `sampleKvs`. -/
theorem C2_values_verbatim_witness :
    (readPhase decA (fileA :: []) =
      (readPhase decA []).map (fun p => (filterRecord sampleKvs :: p.1, p.2)))
    ∧ ∀ k : String, k ∈ (filterRecord sampleKvs).map Prod.fst →
        pySubscript (Json.obj (filterRecord sampleKvs)) k =
          pySubscript (Json.obj sampleKvs) k :=
  C2_values_verbatim decA fileA sampleKvs []
    (by
      show decA (pyStrip (dumpChars (Json.obj sampleKvs) ++ ['\n'])) =
        .ok (Json.obj sampleKvs)
      rw [pyStrip_dump_obj]
      exact if_pos rfl)

/-- C3 as stated fails on the code: the file `5\n` has N = 1 lines and
M = 0 decode failures (its one line decodes to the JSON number 5), so the
claim promises 1 output line, but the script writes nothing — the
membership test raises an uncaught `TypeError` before the write phase. -/
theorem C3_counterexample :
    lineFails decNum ('5' :: '\n' :: []) = false
    ∧ processFileContent decNum ('5' :: '\n' :: []) = .error PyErr.typeError
    ∧ ∀ out, processFileContent decNum ('5' :: '\n' :: []) ≠ .ok out := by
  refine ⟨rfl, rfl, ?_⟩
  intro out h
  exact Except.noConfusion
    ((rfl : processFileContent decNum ('5' :: '\n' :: []) =
      .error PyErr.typeError).symm.trans h)

/-- C3 amended: provided every successfully decoded line is a JSON object,
a file with N lines of which M fail to decode produces one diagnostic per
failing line, drops exactly those lines, writes the surviving records in
input order, and the rewritten file has exactly N − M lines. -/
theorem C3_amended_dropped_lines (decode : Decoder) (c : List Char)
    (hobj : ∀ l ∈ pyReadLines c, ∀ v, decode (pyStrip l) = .ok v →
      ∃ kvs, v = Json.obj kvs) :
    readPhase decode (pyReadLines c) =
      .ok ((pyReadLines c).filterMap (lineRecord decode),
           (pyReadLines c).countP (lineFails decode))
    ∧ processFileContent decode c =
        .ok (serializeRecords ((pyReadLines c).filterMap (lineRecord decode)),
             (pyReadLines c).countP (lineFails decode))
    ∧ ((pyReadLines c).filterMap (lineRecord decode)).length +
        (pyReadLines c).countP (lineFails decode) = (pyReadLines c).length
    ∧ (pyReadLines (serializeRecords
          ((pyReadLines c).filterMap (lineRecord decode)))).length +
        (pyReadLines c).countP (lineFails decode) = (pyReadLines c).length := by
  have h1 := readPhase_ok decode (pyReadLines c) hobj
  have h2 := lineRecord_length decode (pyReadLines c) hobj
  refine ⟨h1, processFileContent_of_readPhase decode c _ _ h1, h2, ?_⟩
  rw [pyReadLines_serializeRecords, List.length_map]
  exact h2

/-- Witness for the amended C3 on a two-line file with one bad line. -/
theorem C3_amended_witness :
    readPhase decA (pyReadLines fileC3) =
      .ok ((pyReadLines fileC3).filterMap (lineRecord decA),
           (pyReadLines fileC3).countP (lineFails decA))
    ∧ processFileContent decA fileC3 =
        .ok (serializeRecords ((pyReadLines fileC3).filterMap (lineRecord decA)),
             (pyReadLines fileC3).countP (lineFails decA))
    ∧ ((pyReadLines fileC3).filterMap (lineRecord decA)).length +
        (pyReadLines fileC3).countP (lineFails decA) = (pyReadLines fileC3).length
    ∧ (pyReadLines (serializeRecords
          ((pyReadLines fileC3).filterMap (lineRecord decA)))).length +
        (pyReadLines fileC3).countP (lineFails decA) = (pyReadLines fileC3).length := by
  refine C3_amended_dropped_lines decA fileC3 ?_
  intro l hl v hv
  have hls : pyReadLines fileC3 =
      [dumpChars (Json.obj sampleKvs) ++ ['\n'], ['x', '\n']] := by
    show pyReadLinesAux []
      (dumpChars (Json.obj sampleKvs) ++ '\n' :: 'x' :: '\n' :: []) = _
    rw [pyReadLinesAux_chunk (dumpChars (Json.obj sampleKvs))
      (dumpChars_no_newline _) [] _]
    rfl
  rw [hls] at hl
  rcases List.mem_cons.mp hl with rfl | hl2
  · rw [pyStrip_dump_obj] at hv
    have h2 : (Except.ok (Json.obj sampleKvs) : Except Unit Json) = .ok v :=
      (if_pos rfl :
        decA (dumpChars (Json.obj sampleKvs)) = .ok (Json.obj sampleKvs)).symm.trans hv
    exact ⟨sampleKvs, (Except.ok.inj h2).symm⟩
  · rcases List.mem_cons.mp hl2 with rfl | hl3
    · have herr : decA (pyStrip ['x', '\n']) = .error () :=
        if_neg (ne_dump_obj_of_head 'x' [] sampleKvs (by decide))
      exact Except.noConfusion (herr.symm.trans hv)
    · cases hl3

/-- C4: the filter is idempotent: the first pass writes the serialized
records; reprocessing that very content reproduces it unchanged (with no
diagnostics), because filtering an already-filtered record is the
identity. -/
theorem C4_idempotent (decode : Decoder) (c : List Char)
    (recs : List (List (String × Json))) (d : Nat)
    (h1 : readPhase decode (pyReadLines c) = .ok (recs, d))
    (hround : ∀ r ∈ recs, decode (dumpChars (Json.obj r)) = .ok (Json.obj r)) :
    processFileContent decode c = .ok (serializeRecords recs, d)
    ∧ processFileContent decode (serializeRecords recs) =
        .ok (serializeRecords recs, 0)
    ∧ ∀ kvs, filterRecord (filterRecord kvs) = filterRecord kvs := by
  refine ⟨processFileContent_of_readPhase decode c recs d h1, ?_, filterRecord_idem⟩
  rw [processFileContent, pyReadLines_serializeRecords,
    readPhase_roundTrip decode recs (readPhase_filtered decode _ recs d h1) hround]

/-- Witness for C4: a pass over the already-filtered `sampleClean` file,
then a second pass over its output. -/
theorem C4_idempotent_witness :
    processFileContent decC fileC = .ok (serializeRecords [sampleClean], 0)
    ∧ processFileContent decC (serializeRecords [sampleClean]) =
        .ok (serializeRecords [sampleClean], 0)
    ∧ ∀ kvs, filterRecord (filterRecord kvs) = filterRecord kvs := by
  have hdec : decC (pyStrip (dumpChars (Json.obj sampleClean) ++ ['\n'])) =
      .ok (Json.obj sampleClean) := by
    rw [pyStrip_dump_obj]
    exact if_pos rfl
  have h1 : readPhase decC (pyReadLines fileC) = .ok ([sampleClean], 0) := by
    have hls : pyReadLines fileC = [dumpChars (Json.obj sampleClean) ++ ['\n']] :=
      pyReadLines_serializeRecords [sampleClean]
    rw [hls, readPhase_cons_obj decC _ [] sampleClean hdec]
    rfl
  refine C4_idempotent decC fileC [sampleClean] 0 h1 ?_
  intro r hr
  rcases List.mem_cons.mp hr with rfl | hr2
  · exact if_pos rfl
  · cases hr2

/-- C5: when the glob matches no file the run completes successfully as a
no-op: no file contents, no diagnostics, no error. -/
theorem C5_empty_glob_noop (decode : Decoder) :
    process_code_summarization_files decode [] = .ok ([], 0) := rfl

/-- C6 as stated fails on the code: a whitespace-only line IS handed to
`json.loads` after stripping (the strip yields the empty string), the
decode fails, and a parse-error diagnostic is printed: the diagnostic
count for the file `[' ']` is 1, not the 0 the claim requires. -/
theorem C6_counterexample :
    pyStrip [' '] = []
    ∧ readPhase failDecode [[' ']] = .ok ([], 1)
    ∧ readPhase failDecode [[' ']] ≠ .ok ([], 0) := by
  refine ⟨rfl, rfl, ?_⟩
  intro h
  have h2 : (Except.ok (([] : List (List (String × Json))), 1) :
      Except PyErr (List (List (String × Json)) × Nat)) = .ok ([], 0) :=
    (rfl : readPhase failDecode [[' ']] = .ok ([], 1)).symm.trans h
  simp at h2

/-- C6 amended: every line, including an empty or whitespace-only one, is
stripped (leading and trailing whitespace) and handed to `json.loads`; a
whitespace-only line strips to the empty string, whose decode fails, so
the line yields one parse-error diagnostic and is dropped, leaving the
output records unchanged. -/
theorem C6_amended_ws_line (decode : Decoder) (line : List Char)
    (rest : List (List Char)) (e : Unit)
    (hws : pyStrip line = []) (hempty : decode [] = .error e) :
    readPhase decode (line :: rest) =
      (readPhase decode rest).map (fun p => (p.1, p.2 + 1)) :=
  readPhase_cons_fail decode line rest e (by rw [hws]; exact hempty)

/-- Witness for the amended C6 on the single-space line. -/
theorem C6_amended_witness :
    readPhase failDecode ([' '] :: []) =
      (readPhase failDecode []).map (fun p => (p.1, p.2 + 1)) :=
  C6_amended_ws_line failDecode [' '] [] () rfl rfl

/-- C7: the write phase happens only after the whole file has been read
and transformed in memory: the new content is a function of the complete
record list alone (whatever was in the file before is truncated away),
and it consists of exactly one JSON-encoded, newline-terminated line per
record, in production order. -/
theorem C7_write_after_read (decode : Decoder) (c : List Char)
    (recs : List (List (String × Json))) (d : Nat)
    (h : readPhase decode (pyReadLines c) = .ok (recs, d)) :
    processFileContent decode c = .ok (serializeRecords recs, d)
    ∧ serializeRecords recs =
        (recs.map (fun r => dumpChars (Json.obj r) ++ ['\n'])).flatten
    ∧ pyReadLines (serializeRecords recs) =
        recs.map (fun r => dumpChars (Json.obj r) ++ ['\n'])
    ∧ (∀ c2 d2, readPhase decode (pyReadLines c2) = .ok (recs, d2) →
        processFileContent decode c2 = .ok (serializeRecords recs, d2)) :=
  ⟨processFileContent_of_readPhase decode c recs d h, rfl,
   pyReadLines_serializeRecords recs,
   fun c2 d2 h2 => processFileContent_of_readPhase decode c2 recs d2 h2⟩

/-- Witness for C7 on the serialized `sampleClean` line. -/
theorem C7_write_after_read_witness :
    processFileContent decC fileC = .ok (serializeRecords [sampleClean], 0)
    ∧ serializeRecords [sampleClean] =
        ([sampleClean].map (fun r => dumpChars (Json.obj r) ++ ['\n'])).flatten
    ∧ pyReadLines (serializeRecords [sampleClean]) =
        [sampleClean].map (fun r => dumpChars (Json.obj r) ++ ['\n'])
    ∧ (∀ c2 d2, readPhase decC (pyReadLines c2) = .ok ([sampleClean], d2) →
        processFileContent decC c2 = .ok (serializeRecords [sampleClean], d2)) := by
  refine C7_write_after_read decC fileC [sampleClean] 0 ?_
  have hdec : decC (pyStrip (dumpChars (Json.obj sampleClean) ++ ['\n'])) =
      .ok (Json.obj sampleClean) := by
    rw [pyStrip_dump_obj]
    exact if_pos rfl
  have hls : pyReadLines fileC = [dumpChars (Json.obj sampleClean) ++ ['\n']] :=
    pyReadLines_serializeRecords [sampleClean]
  rw [hls, readPhase_cons_obj decC _ [] sampleClean hdec]
  rfl

/-- C8: an I/O error — modelled as a file whose open for reading raises
`OSError` — is caught by no handler: the run stops right there with no
retry; the files fully rewritten before the failure keep their new
content, while the faulting file and all later files keep their old
content. -/
theorem C8_io_error_aborts (decode : Decoder) (pre : List SimFile)
    (f : SimFile) (post : List SimFile)
    (hf : f.fault = .openFault)
    (hpre : (runWithFaults decode pre).2 = false) :
    runWithFaults decode (pre ++ f :: post) =
      ((runWithFaults decode pre).1 ++ f.content :: post.map SimFile.content,
       true) := by
  induction pre with
  | nil =>
    rw [List.nil_append, runWithFaults_cons_openFault decode f post hf]
    rfl
  | cons g pre ih =>
    rcases hg : g.fault with _ | _
    · rcases hp : processFileContent decode g.content with e | p
      · rw [runWithFaults_cons_err decode g pre e hg hp] at hpre
        exact Bool.noConfusion hpre
      · rw [runWithFaults_cons_ok decode g pre p.1 p.2 hg (by rw [hp])] at hpre
        have hpre2 : (runWithFaults decode pre).2 = false := hpre
        rw [List.cons_append,
          runWithFaults_cons_ok decode g (pre ++ f :: post) p.1 p.2 hg (by rw [hp]),
          runWithFaults_cons_ok decode g pre p.1 p.2 hg (by rw [hp]),
          ih hpre2]
        simp
    · rw [runWithFaults_cons_openFault decode g pre hg] at hpre
      exact Bool.noConfusion hpre

/-- Witness for C8: a healthy file, then a faulting one, then an
unreached one. -/
theorem C8_io_error_aborts_witness :
    runWithFaults failDecode (preC8 ++ faultC8 :: postC8) =
      ((runWithFaults failDecode preC8).1 ++
        faultC8.content :: postC8.map SimFile.content, true) :=
  C8_io_error_aborts failDecode preC8 faultC8 postC8 rfl rfl

/-- C9: a line that decodes to a JSON number, boolean or null makes the
per-key membership test raise a `TypeError` that the per-line handler
(which catches only `JSONDecodeError`) does not catch: the read phase
errors and the file is never written; conversely, whenever every decoded
line is an object, the read phase succeeds. -/
theorem C9_scalar_aborts (decode : Decoder) (line : List Char) (v : Json)
    (pre post : List (List Char)) (r1 : List (List (String × Json))) (d1 : Nat)
    (hdec : decode (pyStrip line) = .ok v)
    (hscalar : v = Json.null ∨ (∃ b, v = Json.bool b) ∨ (∃ n, v = Json.num n))
    (hpre : readPhase decode pre = .ok (r1, d1)) :
    readPhase decode (pre ++ line :: post) = .error PyErr.typeError
    ∧ (∀ c, pyReadLines c = pre ++ line :: post →
        processFileContent decode c = .error PyErr.typeError)
    ∧ (∀ lines : List (List Char),
        (∀ l ∈ lines, ∀ w, decode (pyStrip l) = .ok w → ∃ kvs, w = Json.obj kvs) →
        ∃ out, readPhase decode lines = .ok out) := by
  have hv : dictComp v = .error PyErr.typeError := by
    rcases hscalar with rfl | ⟨b, rfl⟩ | ⟨n, rfl⟩
    · exact dictComp_null
    · exact dictComp_bool b
    · exact dictComp_num n
  have hline : readPhase decode (line :: post) = .error PyErr.typeError := by
    rw [readPhase_cons_dec decode line post v hdec, hv]
  have habort : readPhase decode (pre ++ line :: post) = .error PyErr.typeError := by
    rw [readPhase_append_ok decode pre (line :: post) r1 d1 hpre, hline]
    rfl
  refine ⟨habort, ?_, ?_⟩
  · intro c hc
    exact processFileContent_of_readPhase_err decode c _ (by rw [hc]; exact habort)
  · intro lines hobj
    exact ⟨_, readPhase_ok decode lines hobj⟩

/-- Witness for C9 on the line `5`. -/
theorem C9_scalar_aborts_witness :
    readPhase decNum ([] ++ ['5'] :: []) = .error PyErr.typeError
    ∧ (∀ c, pyReadLines c = [] ++ ['5'] :: [] →
        processFileContent decNum c = .error PyErr.typeError)
    ∧ (∀ lines : List (List Char),
        (∀ l ∈ lines, ∀ w, decNum (pyStrip l) = .ok w → ∃ kvs, w = Json.obj kvs) →
        ∃ out, readPhase decNum lines = .ok out) :=
  C9_scalar_aborts decNum ['5'] (Json.num 5) [] [] [] 0 rfl
    (Or.inr (Or.inr ⟨5, rfl⟩)) rfl

/-- C10: a line that decodes to a JSON string or array in which the
membership test finds no whitelisted key (no key name occurs as a
substring of the string, no array element equals a key name) is not
dropped: the empty record is appended and serialized as the two
characters of an empty JSON object. -/
theorem C10_nonobj_empty_record (decode : Decoder) (line : List Char)
    (v : Json) (rest : List (List Char))
    (hdec : decode (pyStrip line) = .ok v)
    (hnk : (∃ s, v = Json.str s ∧
              ∀ k ∈ fields_to_keep, containsSub s.data k.data = false) ∨
           (∃ xs, v = Json.arr xs ∧
              ∀ k ∈ fields_to_keep,
                xs.any (fun x => beqJson x (Json.str k)) = false)) :
    readPhase decode (line :: rest) =
      (readPhase decode rest).map (fun p => ([] :: p.1, p.2))
    ∧ dumpChars (Json.obj []) = [lbrace, rbrace] := by
  have hv : dictComp v = .ok [] := by
    rcases hnk with ⟨s, rfl, hs⟩ | ⟨xs, rfl, hxs⟩
    · exact dictCompAux_str_nokey s fields_to_keep hs
    · exact dictCompAux_arr_nokey xs fields_to_keep hxs
  constructor
  · rw [readPhase_cons_dec decode line rest v hdec, hv]
  · rw [dumpChars_obj_shape]
    rfl

/-- Witness for C10 on the line `"hello"`. -/
theorem C10_nonobj_empty_record_witness :
    readPhase decStr ((dumpChars (Json.str "hello") ++ ['\n']) :: []) =
      (readPhase decStr []).map (fun p => ([] :: p.1, p.2))
    ∧ dumpChars (Json.obj []) = [lbrace, rbrace] :=
  C10_nonobj_empty_record decStr (dumpChars (Json.str "hello") ++ ['\n'])
    (Json.str "hello") []
    (by rw [pyStrip_dump_str]; exact if_pos rfl)
    (Or.inl ⟨"hello", rfl, by decide⟩)

end RewriteCodeSum